import Mathlib

/-
Verification of the unrolled/logger HTTP request-logging middleware
(logger.go), as a shallow embedding in Lean 4.

The package wraps an http.Handler: it times the inner call, substitutes a
customResponseWriter recording status and byte count, and after the inner
handler returns either suppresses the log line (exact-match ignore list) or
emits exactly one formatted line to the underlying log.Logger sink.

Modelling choices:
  - Go's io.Writer values are opaque; Out is modelled as `Option Nat` (a
    writer identity, `none` = Go nil), and the sink destination as
    `OutWriter` (stdout or a given writer).
  - Go's `error` is modelled as `GoError` (a message string); `nil` errors
    are `Option.none`.
  - The underlying http.ResponseWriter is an external collaborator: the
    byte count and error its Write returns, and the outcome its Hijack
    returns (when the Hijacker interface is implemented), are inputs to the
    model rather than computed.
  - Time is not modelled: the elapsed-duration text is a parameter.
  - http.Header.Get's MIME key canonicalisation is not modelled; header
    keys are compared as given (the claims under study do not concern it).
-/

namespace UnrolledLogger

/-- A Go `error` value: `fmt.Errorf` produces one carrying a message. -/
structure GoError where
  msg : String
deriving DecidableEq

/-- The destination the underlying `log.Logger` writes to: `os.Stdout` by
default, or the writer supplied in `Options.Out`. -/
inductive OutWriter where
  | stdout
  | given (w : Nat)
deriving DecidableEq

/-- Options (logger.go): configuration for the Logger middleware. Field
defaults are Go's zero values, so `{}` is Go's `Options{}`. -/
structure Options where
  Prefix : String := ""
  DisableAutoBrackets : Bool := false
  RemoteAddressHeaders : List String := []
  Out : Option Nat := none
  OutputFlags : Int := 0
  IgnoredRequestURIs : List String := []
deriving DecidableEq

/-- Go log package: Ldate = 1. -/
def Ldate : Int := 1

/-- Go log package: Ltime = 2. -/
def Ltime : Int := 2

/-- Go log package: LstdFlags = Ldate | Ltime (disjoint bits, so the sum). -/
def LstdFlags : Int := Ldate + Ltime

/-- The part of the standard library's `log.Logger` that `log.New(out,
prefix, flag)` configures: destination, line prefix and decoration flags. -/
structure LogLogger where
  out : OutWriter
  pref : String
  flag : Int
deriving DecidableEq

/-- Logger (logger.go): the middleware value, an embedded `log.Logger`
plus the retained options. -/
structure Logger where
  logger : LogLogger
  opt : Options
deriving DecidableEq

/-- New (logger.go lines 37-72). The Go function is variadic
(`opts ...Options`); the slice of supplied arguments is a `List Options`. -/
def New (opts : List Options) : Logger :=
  let o : Options :=
    match opts with
    | [] => {}
    | o :: _ => o
  let pref : String :=
    if 0 < o.Prefix.length ∧ o.DisableAutoBrackets = false then
      "[" ++ o.Prefix ++ "] "
    else o.Prefix
  let output : OutWriter :=
    match o.Out with
    | some w => OutWriter.given w
    | none => OutWriter.stdout
  let flags : Int :=
    if o.OutputFlags = -1 then 0
    else if o.OutputFlags ≠ 0 then o.OutputFlags
    else LstdFlags
  { logger := { out := output, pref := pref, flag := flags }, opt := o }

/-- customResponseWriter (logger.go lines 99-103): the mutable state the
wrapper keeps per request. The wrapped http.ResponseWriter itself is an
external collaborator; only the recorded status and size are state. -/
structure customResponseWriter where
  status : Int
  size : Int
deriving DecidableEq

/-- newCustomResponseWriter (logger.go lines 130-136): status starts at
200 ("when WriteHeader is not called, it's safe to assume the status will
be 200"); size is Go's zero value 0. -/
def newCustomResponseWriter : customResponseWriter :=
  { status := 200, size := 0 }

/-- WriteHeader (logger.go lines 105-108): records the status (each call
overwrites the field) and forwards the call to the inner writer. -/
def customResponseWriter.WriteHeader (c : customResponseWriter) (status : Int) :
    customResponseWriter :=
  { c with status := status }

/-- Write (logger.go lines 110-114): forwards the bytes to the inner
writer; `innerReturned` is the (count, error) pair the inner writer
returned. The accepted count is added to `size` and the pair is returned
to the caller unchanged. -/
def customResponseWriter.Write (c : customResponseWriter)
    (innerReturned : Int × Option GoError) :
    customResponseWriter × Int × Option GoError :=
  ({ c with size := c.size + innerReturned.1 }, innerReturned.1, innerReturned.2)

/-- The message of the error Hijack builds with `fmt.Errorf`
(logger.go line 127). -/
def hijackErrorMessage : String :=
  "ResponseWriter does not implement the Hijacker interface"

/-- The triple Go's `Hijack() (net.Conn, *bufio.ReadWriter, error)`
returns; the connection and buffered read-writer are opaque (nilable
pointers, modelled as `Option Nat`). -/
structure HijackOutcome where
  conn : Option Nat
  rw : Option Nat
  err : Option GoError
deriving DecidableEq

/-- Hijack (logger.go lines 123-128). `inner` is the capability of the
wrapped writer: `some h` when it implements http.Hijacker and its Hijack
returns `h`; `none` when the type assertion fails, in which case the
wrapper returns nil, nil and its own error. -/
def customResponseWriter.Hijack (inner : Option HijackOutcome) : HijackOutcome :=
  match inner with
  | some h => h
  | none => { conn := none, rw := none, err := some { msg := hijackErrorMessage } }

/-- One operation the inner handler performs on the customResponseWriter.
A `write` records the requested byte-slice length and the (count, error)
pair the underlying writer returned for it (the accepted count may be less
than requested on a partial write). -/
inductive RWOp where
  | writeHeader (status : Int)
  | write (requested : Nat) (accepted : Int) (err : Option GoError)
deriving DecidableEq

/-- Apply one operation to the recorded state. -/
def applyOp (c : customResponseWriter) : RWOp → customResponseWriter
  | .writeHeader s => c.WriteHeader s
  | .write _ n err => (c.Write (n, err)).1

/-- Apply a whole sequence of operations (the inner handler's calls during
one request) to the recorded state. -/
def applyOps (c : customResponseWriter) (ops : List RWOp) : customResponseWriter :=
  ops.foldl applyOp c

/-- The status code a `writeHeader` operation sets, if it is one. -/
def RWOp.statusSet? : RWOp → Option Int
  | .writeHeader s => some s
  | .write _ _ _ => none

/-- The byte count the underlying writer accepted for a `write`
operation, if it is one. -/
def RWOp.acceptedCount? : RWOp → Option Int
  | .write _ n _ => some n
  | .writeHeader _ => none

/-- A request, as the handler reads it: method, raw request-target
(RequestURI, query included), protocol, transport remote address, and the
headers. -/
structure Request where
  Method : String
  RequestURI : String
  Proto : String
  RemoteAddr : String
  Header : List (String × String)
deriving DecidableEq

/-- Header lookup by key (Go `r.Header.Get`): the first pair with the key,
else the empty string. -/
def headerGet : List (String × String) → String → String
  | [], _ => ""
  | (k, v) :: rest, key => if k = key then v else headerGet rest key

/-- The ignore loop of Handler (logger.go lines 82-86): iterate
`IgnoredRequestURIs` in order and stop at the first entry equal to the raw
request-target. -/
def isIgnoredURI : List String → String → Bool
  | [], _ => false
  | ignoredURI :: rest, uri => if ignoredURI = uri then true else isIgnoredURI rest uri

/-- The address loop of Handler (logger.go lines 88-94): start from the
transport remote address; the first configured header with a non-empty
value overrides it and the loop breaks. -/
def resolveAddr (headerKeys : List String) (r : Request) : String :=
  match headerKeys with
  | [] => r.RemoteAddr
  | headerKey :: rest =>
    let val := headerGet r.Header headerKey
    if 0 < val.length then val else resolveAddr rest r

/-- The Printf format of Handler (logger.go line 96):
`(%s) "%s %s %s" %d %d %s` applied to address, method, RequestURI,
protocol, recorded status, recorded size and the elapsed duration. -/
def logLine (addr : String) (r : Request) (crw : customResponseWriter)
    (elapsed : String) : String :=
  "(" ++ addr ++ ") \"" ++ r.Method ++ " " ++ r.RequestURI ++ " " ++ r.Proto
    ++ "\" " ++ toString crw.status ++ " " ++ toString crw.size ++ " " ++ elapsed

/-- Handler (logger.go lines 75-97), observed through the log lines one
request makes it emit. `next` is the inner handler, given as the sequence
of operations it performs on the customResponseWriter for the request;
`elapsed` is the rendered duration (time is not modelled). The wrapper
builds a fresh writer, runs the inner handler, suppresses the line when
the raw request-target is ignored, and otherwise emits exactly the
formatted line. -/
def Handler (l : Logger) (next : Request → List RWOp) (r : Request)
    (elapsed : String) : List String :=
  let crw := applyOps newCustomResponseWriter (next r)
  if isIgnoredURI l.opt.IgnoredRequestURIs r.RequestURI then []
  else [logLine (resolveAddr l.opt.RemoteAddressHeaders r) r crw elapsed]

/- Helper lemmas -/

/-- The ignore loop decides exact membership of the raw request-target in
the configured list. -/
theorem isIgnoredURI_iff_mem (us : List String) (uri : String) :
    isIgnoredURI us uri = true ↔ uri ∈ us := by
  induction us with
  | nil => simp [isIgnoredURI]
  | cons u rest ih =>
    by_cases h : u = uri
    · simp [isIgnoredURI, h]
    · have h' : ¬uri = u := fun hh => h hh.symm
      simp [isIgnoredURI, h, ih, h']

/-- After any sequence of operations, the recorded status is the code of
the last writeHeader in the sequence, or the starting status when there is
none: each WriteHeader call overwrites the field. -/
theorem applyOps_status (ops : List RWOp) (c : customResponseWriter) :
    (applyOps c ops).status = ((ops.filterMap RWOp.statusSet?).getLast?).getD c.status := by
  induction ops generalizing c with
  | nil => rfl
  | cons op rest ih =>
    cases op with
    | writeHeader s =>
      show (applyOps (c.WriteHeader s) rest).status = _
      rw [ih]
      simp only [List.filterMap_cons, RWOp.statusSet?]
      cases hl : rest.filterMap RWOp.statusSet? with
      | nil => simp [customResponseWriter.WriteHeader]
      | cons a tail =>
        have hs : (a :: tail).getLast?.isSome := by simp [List.getLast?_isSome]
        obtain ⟨x, hx⟩ := Option.isSome_iff_exists.mp hs
        simp [hx]
    | write req n err =>
      show (applyOps (applyOp c (.write req n err)) rest).status = _
      rw [ih]
      simp [applyOp, customResponseWriter.Write, RWOp.statusSet?]

/-- After any sequence of operations, the recorded size is the starting
size plus the sum of the byte counts the underlying writer returned for
the write operations. -/
theorem applyOps_size (ops : List RWOp) (c : customResponseWriter) :
    (applyOps c ops).size = c.size + (ops.filterMap RWOp.acceptedCount?).sum := by
  induction ops generalizing c with
  | nil => simp [applyOps]
  | cons op rest ih =>
    cases op with
    | writeHeader s =>
      show (applyOps (c.WriteHeader s) rest).size = _
      rw [ih]
      simp [customResponseWriter.WriteHeader, RWOp.statusSet?, RWOp.acceptedCount?]
    | write req n err =>
      show (applyOps (applyOp c (.write req n err)) rest).size = _
      rw [ih]
      simp [applyOp, customResponseWriter.Write, RWOp.acceptedCount?]
      ring

/- Claim theorems -/

/-- C1: For every request handled by the wrapped handler, zero log lines
are emitted when the raw RequestURI string exactly equals some entry of
IgnoredRequestURIs, and exactly one line is emitted otherwise. Matching is
exact string equality on the raw request-target (membership in the list),
not prefix or glob matching. -/
theorem handler_emits_one_line_unless_ignored (l : Logger)
    (next : Request → List RWOp) (r : Request) (elapsed : String) :
    (Handler l next r elapsed).length =
      if r.RequestURI ∈ l.opt.IgnoredRequestURIs then 0 else 1 := by
  unfold Handler
  by_cases h : r.RequestURI ∈ l.opt.IgnoredRequestURIs
  · simp [h, (isIgnoredURI_iff_mem _ _).mpr h]
  · have hf : isIgnoredURI l.opt.IgnoredRequestURIs r.RequestURI = false := by
      rw [← Bool.not_eq_true, isIgnoredURI_iff_mem]
      exact h
    simp [h, hf]

/-- C2 (counterexample): on a fresh writer, after WriteHeader 201 followed
by WriteHeader 404, the recorded status is not 201, the code of the first
call — WriteHeader overwrites the field on every call, so the claim that
the first status set is observed, never a later overwrite, is false. -/
theorem status_first_set_counterexample :
    ¬ (applyOps newCustomResponseWriter
        [RWOp.writeHeader 201, RWOp.writeHeader 404]).status = 201 := by
  decide

/-- C2 (amended): if WriteHeader is never called, the recorded status is
200; if it is called one or more times, the recorded status equals the
code of the LAST call — each call overwrites the previous value. -/
theorem status_last_set_wins (ops : List RWOp) :
    (applyOps newCustomResponseWriter ops).status =
      ((ops.filterMap RWOp.statusSet?).getLast?).getD 200 :=
  applyOps_status ops newCustomResponseWriter

/-- C3: the logged address is the value of the first header in the
configured order whose lookup yields a non-empty string; once one matches,
the result does not depend on later entries, and when no configured header
yields a non-empty value (the empty list included) the transport
RemoteAddr is used verbatim. -/
theorem remote_address_priority (headerKeys : List String) (r : Request) :
    resolveAddr headerKeys r =
      match headerKeys.find? (fun k => (headerGet r.Header k).length != 0) with
      | some k => headerGet r.Header k
      | none => r.RemoteAddr := by
  induction headerKeys with
  | nil => rfl
  | cons k rest ih =>
    by_cases h : 0 < (headerGet r.Header k).length
    · have hb : ((headerGet r.Header k).length != 0) = true := by
        simpa [bne_iff_ne] using Nat.pos_iff_ne_zero.mp h
      simp [resolveAddr, List.find?, hb, h]
    · have h0 : (headerGet r.Header k).length = 0 := by omega
      have hb : ((headerGet r.Header k).length != 0) = false := by simp [h0]
      simp [resolveAddr, List.find?, hb, h, ih]

/-- C4: across any sequence of write calls on a fresh writer, the
accumulated size equals the sum of the byte counts the underlying writer
returned for those calls (partial writes included, the accepted count may
be less than the requested length), and every write call returns to its
caller exactly the (count, error) pair the underlying writer returned,
unmodified. -/
theorem write_size_and_passthrough (ops : List RWOp) :
    (applyOps newCustomResponseWriter ops).size =
      (ops.filterMap RWOp.acceptedCount?).sum
    ∧ ∀ (c : customResponseWriter) (n : Int) (err : Option GoError),
        (c.Write (n, err)).2 = (n, err) := by
  constructor
  · simpa [newCustomResponseWriter] using applyOps_size ops newCustomResponseWriter
  · intro c n err
    rfl

/-- C5: the flags handed to the underlying log.Logger resolve three ways:
OutputFlags = -1 yields 0 (no decorations), OutputFlags = 0 (the absent /
zero value) yields log.LstdFlags (date + time), and any other value is
used verbatim. -/
theorem output_flags_resolution (o : Options) :
    (New [o]).logger.flag =
      if o.OutputFlags = -1 then 0
      else if o.OutputFlags = 0 then LstdFlags
      else o.OutputFlags := by
  by_cases h1 : o.OutputFlags = -1
  · simp [New, h1]
  · by_cases h0 : o.OutputFlags = 0
    · simp [New, h1, h0]
    · simp [New, h1, h0]

/-- C6: the effective line prefix is "[" ++ Prefix ++ "] " when Prefix is
non-empty and DisableAutoBrackets is false; the empty string when Prefix
is empty, regardless of DisableAutoBrackets; and exactly Prefix with no
decoration when DisableAutoBrackets is true. -/
theorem line_prefix_resolution (o : Options) :
    (0 < o.Prefix.length → o.DisableAutoBrackets = false →
        (New [o]).logger.pref = "[" ++ o.Prefix ++ "] ")
    ∧ (o.Prefix = "" → (New [o]).logger.pref = "")
    ∧ (o.DisableAutoBrackets = true →
        (New [o]).logger.pref = o.Prefix) := by
  refine ⟨fun hlen hb => ?_, fun he => ?_, fun hb => ?_⟩
  · simp [New, hlen, hb]
  · simp [New, he]
  · simp [New, hb]

/-- C6 (witness): the three cases at concrete options — prefix "myApp"
with brackets, empty prefix, and "myApp" with brackets disabled. -/
theorem line_prefix_resolution_witness :
    (New [{ Prefix := "myApp" }]).logger.pref = "[myApp] "
    ∧ (New [{ DisableAutoBrackets := true }]).logger.pref = ""
    ∧ (New [{ Prefix := "myApp", DisableAutoBrackets := true }]).logger.pref
        = "myApp" :=
  ⟨(line_prefix_resolution { Prefix := "myApp" }).1 (by decide) rfl,
   (line_prefix_resolution { DisableAutoBrackets := true }).2.1 rfl,
   (line_prefix_resolution { Prefix := "myApp", DisableAutoBrackets := true }).2.2 rfl⟩

/-- C7: when the wrapped writer does not implement http.Hijacker, Hijack
returns nil connection, nil read-writer and the descriptive error, without
panicking (the model is a total function); when it does, Hijack returns
the wrapped writer's result unchanged. -/
theorem hijack_delegates_or_errors (inner : Option HijackOutcome) :
    (inner = none →
      customResponseWriter.Hijack inner =
        { conn := none, rw := none, err := some { msg := hijackErrorMessage } })
    ∧ (∀ h, inner = some h → customResponseWriter.Hijack inner = h) := by
  refine ⟨fun hn => ?_, fun h hs => ?_⟩
  · rw [hn]
    rfl
  · rw [hs]
    rfl

/-- C7 (witness): Hijack at a writer without the capability, and at one
whose Hijack returns connection 1, read-writer 2 and no error. -/
theorem hijack_delegates_or_errors_witness :
    customResponseWriter.Hijack none =
      { conn := none, rw := none, err := some { msg := hijackErrorMessage } }
    ∧ customResponseWriter.Hijack (some { conn := some 1, rw := some 2, err := none })
        = { conn := some 1, rw := some 2, err := none } :=
  ⟨(hijack_delegates_or_errors none).1 rfl,
   (hijack_delegates_or_errors (some { conn := some 1, rw := some 2, err := none })).2
     { conn := some 1, rw := some 2, err := none } rfl⟩

/-- C8: New with two or more Options arguments builds the same Logger as
New with just the first; the later arguments are silently ignored and no
error is raised (the function is total). -/
theorem extra_options_ignored (o1 o2 : Options) (rest : List Options) :
    New (o1 :: o2 :: rest) = New [o1] :=
  rfl

/-- C9: for every non-ignored request the single emitted line is
`(address) "METHOD REQUEST-URI PROTOCOL" status size elapsed`, where the
address is the resolved one, status and size are the observer's recorded
values after the inner handler ran, and method, raw request-target and
protocol are taken from the request unchanged. -/
theorem emitted_line_shape (l : Logger) (next : Request → List RWOp)
    (r : Request) (elapsed : String)
    (h : r.RequestURI ∉ l.opt.IgnoredRequestURIs) :
    Handler l next r elapsed =
      ["(" ++ resolveAddr l.opt.RemoteAddressHeaders r ++ ") \"" ++ r.Method
        ++ " " ++ r.RequestURI ++ " " ++ r.Proto ++ "\" "
        ++ toString (applyOps newCustomResponseWriter (next r)).status ++ " "
        ++ toString (applyOps newCustomResponseWriter (next r)).size ++ " "
        ++ elapsed] := by
  have hf : isIgnoredURI l.opt.IgnoredRequestURIs r.RequestURI = false := by
    rw [← Bool.not_eq_true, isIgnoredURI_iff_mem]
    exact h
  simp [Handler, hf, logLine]

/-- C9 (witness): a GET /foo request with a 3-byte body against a logger
ignoring only /favicon.ico yields the one fully evaluated line. -/
theorem emitted_line_shape_witness :
    Handler (New [{ IgnoredRequestURIs := ["/favicon.ico"] }])
        (fun _ => [RWOp.write 3 3 none])
        { Method := "GET", RequestURI := "/foo", Proto := "HTTP/1.1",
          RemoteAddr := "8.8.4.4", Header := [] } "10ms"
      = ["(8.8.4.4) \"GET /foo HTTP/1.1\" 200 3 10ms"] := by
  have h := emitted_line_shape (New [{ IgnoredRequestURIs := ["/favicon.ico"] }])
    (fun _ => [RWOp.write 3 3 none])
    { Method := "GET", RequestURI := "/foo", Proto := "HTTP/1.1",
      RemoteAddr := "8.8.4.4", Header := [] } "10ms" (by decide)
  rw [h]
  rfl

/-- C10: New with zero arguments gives the same Logger as New with the
zero-value Options: empty prefix, stdout sink, log.LstdFlags, empty
address-header list and empty ignore list. -/
theorem new_zero_args_default :
    New [] = New [({} : Options)]
    ∧ (New []).logger.pref = ""
    ∧ (New []).logger.out = OutWriter.stdout
    ∧ (New []).logger.flag = LstdFlags
    ∧ (New []).opt.RemoteAddressHeaders = []
    ∧ (New []).opt.IgnoredRequestURIs = [] := by
  refine ⟨rfl, rfl, rfl, by decide, rfl, rfl⟩

end UnrolledLogger
